import Mathlib

/-!
# Verification of the `vulnscanner` dependency scanner

Shallow embedding of the pure core of `main.go`: go.mod parsing,
severity classification, upgrade-hint extraction, word wrapping,
description truncation, CLI argument dispatch and the report summary.

Go strings are modelled as Lean `String`s (or their character lists);
Go `len` on the ASCII data handled here coincides with the character
count.  CVSS scores (Go `float64`) are modelled as rationals: every
comparison performed by the program is an order comparison against the
constants 9.0 / 7.0 / 4.0, on which rational and IEEE double order
agree for the decimal literals involved.  Fallible operations (the Go
slice expression that can panic) return `Option`, with `none` for a
panic.
-/

/-- ANSI reset escape, `"\033[0m"` in `main.go`. -/
def ColorReset : String := "\x1b[0m"

/-- ANSI bold escape, `"\033[1m"` in `main.go`. -/
def ColorBold : String := "\x1b[1m"

/-- ANSI red escape, `"\033[31m"` in `main.go`. -/
def ColorRed : String := "\x1b[31m"

/-- ANSI yellow escape, `"\033[33m"` in `main.go`. -/
def ColorYel : String := "\x1b[33m"

/-- ANSI blue escape, `"\033[34m"` in `main.go`. -/
def ColorBlu : String := "\x1b[34m"

/-- Embedding of `severityColor` (src/main.go:128-139): branch on the
CVSS score with the same inclusive lower bounds as the Go `switch`. -/
def severityColor (score : ℚ) : String :=
  if score ≥ 9 then ColorRed ++ ColorBold
  else if score ≥ 7 then ColorRed
  else if score ≥ 4 then ColorYel
  else ColorReset

/-- The severity tiers named by the specification (critical / high /
medium / low); the program represents a tier only through its display
emphasis string. -/
inductive SeverityTier : Type
  | critical
  | high
  | medium
  | low
deriving DecidableEq, Repr

/-- Tier classification with the branch structure of `severityColor`
(src/main.go:128-139), returning the tier name instead of its color. -/
def classifyScore (score : ℚ) : SeverityTier :=
  if score ≥ 9 then .critical
  else if score ≥ 7 then .high
  else if score ≥ 4 then .medium
  else .low

/-- The fixed display emphasis attached to each tier by `severityColor`:
critical ↦ red+bold, high ↦ red, medium ↦ yellow, low ↦ reset. -/
def tierEmphasis : SeverityTier → String
  | .critical => ColorRed ++ ColorBold
  | .high => ColorRed
  | .medium => ColorYel
  | .low => ColorReset

/-- Embedding of `truncate` (src/main.go:93-98):
`if len(s) > max { return s[:max-3] + "..." }; return s`.
The slice `s[:max-3]` panics when `max - 3 < 0`; a panic is modelled as
`none`.  (`max - 3 > len(s)` is impossible in the slicing branch since
there `max < len(s)`.) -/
def truncate (s : String) (max : Int) : Option String :=
  if (s.length : Int) > max then
    if max - 3 < 0 then none
    else some (String.mk (s.data.take (max - 3).toNat) ++ "...")
  else some s

/-- Step taken by `main` once parsing has succeeded
(src/main.go:300-306): either the empty-list short circuit (print the
message, exit 0, never touch the network) or a query with the parsed
coordinate list. -/
inductive PostParseStep : Type
  | exitNoDeps (msg : String) (exitCode : Nat)
  | query (coords : List String)
deriving DecidableEq, Repr

/-- Embedding of the dependency-count check in `main`
(src/main.go:300-306): `if len(coords) == 0 { print; os.Exit(0) }`,
otherwise `checkVulnerabilities(coords)` is invoked. -/
def afterParse (coords : List String) : PostParseStep :=
  if coords.length = 0 then .exitNoDeps "No dependencies found." 0
  else .query coords

/-- Action selected by the argument validation in `main`
(src/main.go:279-295): either print usage and exit 1, or go on to parse
the named manifest file. -/
inductive CliAction : Type
  | usageExit
  | parseManifest (lang : String) (manifest : String)
deriving DecidableEq, Repr

/-- Embedding of the CLI checks in `main` (src/main.go:279-295):
`len(os.Args) != 3` prints usage and exits 1; the ecosystem switch
accepts exactly the literals "go" and "java" and otherwise prints the
supported-languages message and exits 1.  `filepath.Join` is modelled
as `path ++ "/" ++ file`. -/
def cliDispatch : List String → CliAction
  | [_prog, lang, path] =>
    if lang = "go" then .parseManifest "go" (path ++ "/go.mod")
    else if lang = "java" then .parseManifest "java" (path ++ "/pom.xml")
    else .usageExit
  | _ => .usageExit

/-- Vulnerability record decoded from the OSS Index response
(src/main.go:36-43); the CVSS score is modelled as a rational. -/
structure Vulnerability : Type where
  id : String
  title : String
  description : String
  cvssScore : ℚ
  cve : String
  reference : String
deriving DecidableEq, Repr

/-- One per-coordinate entry of the OSS Index response
(src/main.go:45-48). -/
structure OSSIndexResponse : Type where
  coordinates : String
  vulnerabilities : List Vulnerability
deriving DecidableEq, Repr

/-- The aggregation loop of `main` (src/main.go:312-319): walk the
results, counting affected dependencies (`totalDeps`) and all of their
vulnerabilities (`totalVulns`). -/
def reportTotalsAux (totalDeps totalVulns : Nat) :
    List OSSIndexResponse → Nat × Nat
  | [] => (totalDeps, totalVulns)
  | r :: rs =>
    if r.vulnerabilities.length > 0 then
      reportTotalsAux (totalDeps + 1) (totalVulns + r.vulnerabilities.length) rs
    else reportTotalsAux totalDeps totalVulns rs

/-- The two counters of `main` after the whole result walk. -/
def reportTotals (results : List OSSIndexResponse) : Nat × Nat :=
  reportTotalsAux 0 0 results

/-- The final message of `main` (src/main.go:320-325): the distinct
clean message when no vulnerability was counted, otherwise the
aggregate summary line. -/
def summaryLine (results : List OSSIndexResponse) : String :=
  let t := reportTotals results
  if t.2 = 0 then "✅ No known vulnerabilities found!"
  else "\nSummary: " ++ toString t.1 ++ " dependencies affected, " ++
    toString t.2 ++ " vulnerabilities found.\n"

/-- Character class `\s` of the Go regexp package (RE2): tab, newline,
form feed, carriage return, space. -/
def isRegexSpace (c : Char) : Bool :=
  c = ' ' || c = '\t' || c = '\n' || c = '\x0c' || c = '\r'

/-- Character class `[0-9A-Za-z\.\-\+]` of the version group of
`depPattern` (src/main.go:215). -/
def isVerChar (c : Char) : Bool :=
  ('0' ≤ c && c ≤ '9') || ('A' ≤ c && c ≤ 'Z') || ('a' ≤ c && c ≤ 'z') ||
  c = '.' || c = '-' || c = '+'

/-- Matcher for `^\s*([^\s]+)\s+v([0-9A-Za-z\.\-\+]+)`
(src/main.go:215).  Because the first group is anchored at the start of
the line and must be followed by whitespace, the engine's backtracking
collapses to this deterministic form: skip the maximal leading
whitespace, capture the maximal non-whitespace token, require
whitespace, require a literal 'v', and capture the maximal non-empty
run of version characters. -/
def matchDepLine (line : List Char) : Option (List Char × List Char) :=
  let rest := line.dropWhile (fun c => isRegexSpace c)
  let tok := rest.takeWhile (fun c => !isRegexSpace c)
  let afterTok := rest.drop tok.length
  let sp := afterTok.takeWhile (fun c => isRegexSpace c)
  if tok.isEmpty || sp.isEmpty then none
  else
    match afterTok.drop sp.length with
    | 'v' :: vrest =>
      let ver := vrest.takeWhile (fun c => isVerChar c)
      if ver.isEmpty then none else some (tok, ver)
    | _ => none

/-- Go `strings.HasPrefix`. -/
def strHasPrefix (s pre : String) : Bool :=
  decide (s.data.take pre.data.length = pre.data)

/-- One iteration of the scanner loop of `parseGoMod`
(src/main.go:218-235): the updated require-block flag and the
coordinates this line emits. -/
def goModStep (inBlock : Bool) (line : String) : Bool × List String :=
  if strHasPrefix line "require (" then (true, [])
  else if inBlock && strHasPrefix line ")" then (false, [])
  else if inBlock || strHasPrefix line "require" then
    match matchDepLine line.data with
    | some (m, v) =>
      (inBlock, ["pkg:golang/" ++ String.mk m ++ "@v" ++ String.mk v])
    | none => (inBlock, [])
  else (inBlock, [])

/-- The scanner loop of `parseGoMod` over the file's lines. -/
def parseGoModLoop : Bool → List String → List String
  | _, [] => []
  | b, l :: ls =>
    let step := goModStep b l
    step.2 ++ parseGoModLoop step.1 ls

/-- Embedding of `parseGoMod` (src/main.go:206-237) on the list of
lines of the manifest (file I/O and the missing-file error path are
outside the model). -/
def parseGoMod (lines : List String) : List String :=
  parseGoModLoop false lines

/-- ASCII lowering for Go `strings.ToLower` (the phrases searched for
are ASCII, and `Char.toLower` agrees with Go on ASCII). -/
def lowerStr (s : String) : String :=
  String.mk (s.data.map Char.toLower)

/-- Splitter of Go `strings.Fields`: the maximal runs of non-whitespace
characters, in order. -/
def fieldsAux (acc : List Char) : List Char → List (List Char)
  | [] => if acc.isEmpty then [] else [acc.reverse]
  | c :: rest =>
    if c.isWhitespace then
      if acc.isEmpty then fieldsAux [] rest
      else acc.reverse :: fieldsAux [] rest
    else fieldsAux (c :: acc) rest

/-- Go `strings.Fields` on a string. -/
def fields (s : String) : List String :=
  (fieldsAux [] s.data).map String.mk

/-- Go `strings.Index` followed by slicing off everything through the
match: the suffix immediately after the first occurrence of `pat`, or
`none` when `pat` does not occur. -/
def afterFirstOccur (pat : List Char) : List Char → Option (List Char)
  | [] => if pat.isEmpty then some [] else none
  | c :: rest =>
    if (c :: rest).take pat.length = pat then
      some ((c :: rest).drop pat.length)
    else afterFirstOccur pat rest

/-- The phrase loop of `extractUpgradeSuggestion` (src/main.go:113-123):
for each phrase in order, find its first occurrence in the lowercased
description; when a whitespace-delimited token follows, return the
rendered suggestion, otherwise try the next phrase. -/
def tryPhrases (pre lower : String) : List String → String
  | [] => ""
  | p :: ps =>
    match afterFirstOccur p.data lower.data with
    | some after =>
      match fieldsAux [] after with
      | w :: _ => pre ++ String.mk w
      | [] => tryPhrases pre lower ps
    | none => tryPhrases pre lower ps

/-- The phrase list of `extractUpgradeSuggestion` in src/main.go:113-115
(four phrases; the `"upgrade to "` phrase of the draft variants is
absent here). -/
def upgradePhrases : List String :=
  ["upgrade to version ", "fixed in ", "update to version ", "use version "]

/-- Embedding of `extractUpgradeSuggestion` (src/main.go:111-125). -/
def extractUpgradeSuggestion (desc : String) : String :=
  tryPhrases "Upgrade to " (lowerStr desc) upgradePhrases

/-- OSC-8 wrapper `hyperlink` (src/main.go:106-108). -/
def hyperlink (text url : String) : String :=
  "\x1b]8;;" ++ url ++ "\x1b\\" ++ text ++ "\x1b]8;;\x1b\\"

/-- The suggested-fix selection of `printVulnTable`
(src/main.go:165-169): the extracted hint, or the clickable
reference-URL fallback when extraction produced the empty string. -/
def suggestedFix (desc ref : String) : String :=
  let fix := extractUpgradeSuggestion desc
  if fix = "" then hyperlink "Check reference URL" ref else fix

/-- Specification-side reading of one phrase probe: the next
whitespace-delimited token after the first occurrence of `p` in
`lower`, when both exist. -/
def phraseToken (lower p : String) : Option String :=
  (afterFirstOccur p.data lower.data).bind
    (fun after => (fieldsAux [] after).head?.map String.mk)

/-- Specification-side reading of the hint search: the first phrase in
priority order that occurs and is followed by a token decides the
suggestion; otherwise the result is empty. -/
def specUpgradeHint (pre : String) (phrases : List String)
    (lower : String) : String :=
  match phrases.findSome? (phraseToken lower) with
  | some tok => pre ++ tok
  | none => ""

/-- The single-space joining that `wrapText` performs when accumulating
words into a line. -/
def joinWords : List String → String
  | [] => ""
  | [w] => w
  | w :: x :: ws => w ++ " " ++ joinWords (x :: ws)

/-- The accumulation loop of `wrapText` (src/main.go:80-89): `line`
holds the words joined so far; a word that would push the displayed
length past `width` closes the current line.  `String.length` is the
character count, matching Go's `utf8.RuneCountInString`. -/
def wrapLoop (width : Nat) : String → List String → List String
  | line, [] => [line]
  | line, w :: ws =>
    if line.length + 1 + w.length > width then line :: wrapLoop width w ws
    else wrapLoop width (line ++ " " ++ w) ws

/-- Embedding of `wrapText` (src/main.go:74-91). -/
def wrapText (s : String) (width : Nat) : List String :=
  match fields s with
  | [] => [""]
  | w :: ws => wrapLoop width w ws

/-- C3: For every numeric score, severity classification maps
score ≥ 9.0 to critical, 7.0 ≤ score < 9.0 to high, 4.0 ≤ score < 7.0
to medium and score < 4.0 to low, each lower bound inclusive; 9.0 is
critical, 8.99 is high, 6.99 is medium, 3.99 is low, and each tier maps
to its fixed display emphasis. -/
theorem classifyScore_boundaries (score : ℚ) :
    (classifyScore score = .critical ↔ 9 ≤ score) ∧
    (classifyScore score = .high ↔ 7 ≤ score ∧ score < 9) ∧
    (classifyScore score = .medium ↔ 4 ≤ score ∧ score < 7) ∧
    (classifyScore score = .low ↔ score < 4) ∧
    severityColor score = tierEmphasis (classifyScore score) ∧
    classifyScore 9 = .critical ∧ classifyScore 8.99 = .high ∧
    classifyScore 6.99 = .medium ∧ classifyScore 3.99 = .low := by
  have hcolor : severityColor score = tierEmphasis (classifyScore score) := by
    unfold severityColor classifyScore
    split_ifs <;> rfl
  refine ⟨?_, ?_, ?_, ?_, hcolor, by norm_num [classifyScore],
    by norm_num [classifyScore], by norm_num [classifyScore],
    by norm_num [classifyScore]⟩ <;>
  · unfold classifyScore
    split_ifs with h1 h2 h3 <;> simp_all [not_le] <;>
      first
        | linarith
        | (intro h; linarith)

/-- C8: for the program's fixed budgets (all at least 3), a description
within the budget is rendered unchanged, and a longer one is rendered
ellipsis-terminated without exceeding the budget. -/
theorem truncate_budget (s : String) (max : Int) (h3 : 3 ≤ max) :
    ((s.length : Int) ≤ max → truncate s max = some s) ∧
    (max < (s.length : Int) →
      ∃ r, truncate s max = some r ∧ (r.length : Int) ≤ max ∧
        ∃ t, r = t ++ "...") := by
  constructor
  · intro hle
    unfold truncate
    rw [if_neg (by omega)]
  · intro hlt
    refine ⟨String.mk (s.data.take (max - 3).toNat) ++ "...", ?_, ?_, _, rfl⟩
    · unfold truncate
      rw [if_pos (by omega), if_neg (by omega)]
    · have hdots : ("..." : String).length = 3 := rfl
      have hlen : (String.mk (s.data.take (max - 3).toNat) ++ "...").length
          = (s.data.take (max - 3).toNat).length + 3 := by
        rw [String.length_append, String.length_mk, hdots]
      rw [hlen]
      have htake : (s.data.take (max - 3).toNat).length
          = min (max - 3).toNat s.data.length := List.length_take _ _
      have hdata : s.data.length = s.length := rfl
      have : (max - 3).toNat ≤ (max.toNat - 3) := by omega
      omega

/-- Witness for `truncate_budget` at a concrete long description. -/
theorem truncate_budget_witness :
    ∃ r, truncate "abcdefgh" 5 = some r ∧ (r.length : Int) ≤ 5 ∧
      ∃ t, r = t ++ "..." :=
  (truncate_budget "abcdefgh" 5 (by decide)).2 (by decide)

/-- C10: when the input is longer than the budget and the budget is
below 3, the Go slice `s[:max-3]` has a negative upper bound and the
call panics (modelled as `none`); callers must keep `max ≥ 3`. -/
theorem truncate_panics (s : String) (max : Int)
    (hlong : max < (s.length : Int)) (hsmall : max < 3) :
    truncate s max = none := by
  unfold truncate
  rw [if_pos (by omega), if_pos (by omega)]

/-- Witness for `truncate_panics`: budget 2 on a four-character string. -/
theorem truncate_panics_witness : truncate "abcd" 2 = none :=
  truncate_panics "abcd" 2 (by decide) (by decide)

/-- C6: when the manifest parser succeeds with zero coordinates, `main`
prints "No dependencies found." and exits 0, and a query step is only
ever reached with a non-empty coordinate list. -/
theorem afterParse_empty_no_query :
    afterParse [] = .exitNoDeps "No dependencies found." 0 ∧
    ∀ coords cs, afterParse coords = .query cs → cs ≠ [] := by
  refine ⟨rfl, ?_⟩
  intro coords cs h hnil
  subst hnil
  unfold afterParse at h
  split_ifs at h with hc
  simp only [PostParseStep.query.injEq] at h
  exact hc (by simp [h])

/-- Witness for `afterParse_empty_no_query` at a one-element list. -/
theorem afterParse_empty_no_query_witness :
    (["pkg:golang/x@v1.0.0"] : List String) ≠ [] :=
  afterParse_empty_no_query.2 ["pkg:golang/x@v1.0.0"]
    ["pkg:golang/x@v1.0.0"] rfl

/-- C9: a wrong argument count or an unrecognized ecosystem selector
makes `main` print usage and exit non-zero, and a manifest is only ever
parsed when the invocation had exactly three arguments and the selector
was the literal "go" or "java". -/
theorem cliDispatch_usage (args : List String) :
    (args.length ≠ 3 → cliDispatch args = .usageExit) ∧
    (∀ prog lang path, args = [prog, lang, path] → lang ≠ "go" →
      lang ≠ "java" → cliDispatch args = .usageExit) ∧
    (cliDispatch args ≠ .usageExit →
      ∃ prog path, args = [prog, "go", path] ∨ args = [prog, "java", path]) := by
  rcases args with _ | ⟨a, _ | ⟨b, _ | ⟨c, _ | ⟨d, rest⟩⟩⟩⟩
  · exact ⟨fun _ => rfl, by intro p l q h; simp at h,
      by intro h; exact absurd rfl h⟩
  · exact ⟨fun _ => rfl, by intro p l q h; simp at h,
      by intro h; exact absurd rfl h⟩
  · exact ⟨fun _ => rfl, by intro p l q h; simp at h,
      by intro h; exact absurd rfl h⟩
  · refine ⟨fun h => absurd rfl h, ?_, ?_⟩
    · intro p l q heq hgo hjava
      obtain ⟨rfl, rfl, rfl⟩ : a = p ∧ b = l ∧ c = q := by simpa using heq
      simp [cliDispatch, hgo, hjava]
    · intro h
      by_cases hb : b = "go"
      · exact ⟨a, c, Or.inl (by rw [hb])⟩
      · by_cases hb2 : b = "java"
        · exact ⟨a, c, Or.inr (by rw [hb2])⟩
        · exact absurd (by simp [cliDispatch, hb, hb2]) h
  · exact ⟨fun _ => rfl, by intro p l q h; simp at h,
      by intro h; exact absurd rfl h⟩

/-- Witness for `cliDispatch_usage`: a one-argument invocation. -/
theorem cliDispatch_usage_witness :
    cliDispatch ["vulnscanner"] = .usageExit :=
  (cliDispatch_usage ["vulnscanner"]).1 (by decide)

/-- Helper: the aggregation loop computes, on top of its accumulators,
the number of reports with at least one vulnerability and the total
vulnerability count. -/
theorem reportTotalsAux_eq (d v : Nat) (results : List OSSIndexResponse) :
    reportTotalsAux d v results =
      (d + results.countP (fun r => decide (0 < r.vulnerabilities.length)),
       v + (results.map (fun r => r.vulnerabilities.length)).sum) := by
  induction results generalizing d v with
  | nil => simp [reportTotalsAux]
  | cons r rs ih =>
    rw [reportTotalsAux]
    split_ifs with h
    · rw [ih, List.countP_cons]
      simp only [List.map_cons, List.sum_cons, decide_eq_true_eq]
      rw [if_pos h, Prod.mk.injEq]
      omega
    · rw [ih, List.countP_cons]
      simp only [List.map_cons, List.sum_cons, decide_eq_true_eq]
      rw [if_neg h, Prod.mk.injEq]
      omega

/-- C7: the aggregate summary counts the reports with at least one
vulnerability and the total vulnerability count; a zero-vulnerability
run yields the distinct clean message instead, and one report with two
vulnerabilities yields the summary "1 dependencies affected, 2
vulnerabilities found.". -/
theorem summary_counts (results : List OSSIndexResponse) :
    reportTotals results =
      (results.countP (fun r => decide (0 < r.vulnerabilities.length)),
       (results.map (fun r => r.vulnerabilities.length)).sum) ∧
    ((results.map (fun r => r.vulnerabilities.length)).sum = 0 →
      summaryLine results = "✅ No known vulnerabilities found!") ∧
    ((results.map (fun r => r.vulnerabilities.length)).sum ≠ 0 →
      summaryLine results =
        "\nSummary: " ++
        toString (results.countP (fun r => decide (0 < r.vulnerabilities.length))) ++
        " dependencies affected, " ++
        toString ((results.map (fun r => r.vulnerabilities.length)).sum) ++
        " vulnerabilities found.\n") ∧
    summaryLine [⟨"pkg:golang/a@v1.0.0",
        [⟨"i1", "t1", "d1", 5, "c1", "r1"⟩, ⟨"i2", "t2", "d2", 8, "c2", "r2"⟩]⟩] =
      "\nSummary: 1 dependencies affected, 2 vulnerabilities found.\n" := by
  have hr : reportTotals results =
      (results.countP (fun r => decide (0 < r.vulnerabilities.length)),
       (results.map (fun r => r.vulnerabilities.length)).sum) := by
    simpa using reportTotalsAux_eq 0 0 results
  refine ⟨hr, ?_, ?_, by decide⟩
  · intro h0
    unfold summaryLine
    rw [hr]
    simp [h0]
  · intro h0
    unfold summaryLine
    rw [hr]
    simp [h0]

/-- Witness for `summary_counts`: the empty result list produces the
clean message. -/
theorem summary_counts_witness :
    summaryLine [] = "✅ No known vulnerabilities found!" :=
  (summary_counts []).2.1 (by decide)

/-- C1: evaluation of the parser at the decisive inputs.  A line inside
a requirement block is extracted with the captured module path and
version, but a well-formed single-entry requirement line yields no
coordinate at all: the anchored pattern makes the literal token
`require` the only candidate for the module-path group and then demands
that the real module path start with `v` plus version characters.  When
that accidental shape does occur, the emitted coordinate names the
module `require`. -/
theorem parseGoMod_single_entry_bug :
    parseGoMod ["require golang.org/x/text v0.3.0"] = [] ∧
    parseGoMod ["require (", "\tgolang.org/x/text v0.3.0", ")"] =
      ["pkg:golang/golang.org/x/text@v0.3.0"] ∧
    parseGoMod ["require v1.0.0 v2.0.0"] = ["pkg:golang/require@v1.0.0"] := by
  refine ⟨by decide, by decide, by decide⟩

/-- Helper: the phrase loop equals its specification reading — the
first phrase in priority order that occurs and is followed by a token
decides the suggestion. -/
theorem tryPhrases_eq_spec (pre lower : String) (ps : List String) :
    tryPhrases pre lower ps = specUpgradeHint pre ps lower := by
  induction ps with
  | nil => rfl
  | cons p ps ih =>
    simp only [tryPhrases, specUpgradeHint, List.findSome?_cons, phraseToken]
    cases h : afterFirstOccur p.data lower.data with
    | none => simpa [h, specUpgradeHint] using ih
    | some after =>
      cases hw : fieldsAux [] after with
      | nil => simpa [h, hw, specUpgradeHint] using ih
      | cons w ws => simp [h, hw]

/-- C2 (amended): the deployed extractor searches the lowercased
description for "upgrade to version ", "fixed in ", "update to
version ", "use version " in that order (the phrase "upgrade to " is
not searched), renders "Upgrade to <token>" for the first phrase that
occurs followed by a whitespace-delimited token — so "fixed in 2.3.1
after" yields "Upgrade to 2.3.1" — and the renderer falls back to the
clickable reference-URL suggestion when extraction yields nothing. -/
theorem extractUpgrade_amended :
    (∀ desc : String, extractUpgradeSuggestion desc =
      specUpgradeHint "Upgrade to " upgradePhrases (lowerStr desc)) ∧
    extractUpgradeSuggestion "fixed in 2.3.1 after" = "Upgrade to 2.3.1" ∧
    (∀ desc ref : String, extractUpgradeSuggestion desc = "" →
      suggestedFix desc ref = hyperlink "Check reference URL" ref) := by
  refine ⟨fun desc => tryPhrases_eq_spec _ _ _, by decide, ?_⟩
  intro desc ref h
  unfold suggestedFix
  simp [h]

/-- Witness for `extractUpgrade_amended`: a description without any
recognized phrase selects the clickable fallback. -/
theorem extractUpgrade_amended_witness :
    suggestedFix "no hint here" "https://example.org" =
      hyperlink "Check reference URL" "https://example.org" :=
  extractUpgrade_amended.2.2 "no hint here" "https://example.org" (by decide)

/-- C2 counterexample: on the claim's own example the program renders
"Upgrade to 2.3.1", not "Upgrade to version 2.3.1", and a description
matched only by the claimed phrase "upgrade to " produces no
suggestion at all. -/
theorem extractUpgrade_counterexample :
    extractUpgradeSuggestion "fixed in 2.3.1 after" = "Upgrade to 2.3.1" ∧
    extractUpgradeSuggestion "fixed in 2.3.1 after" ≠
      "Upgrade to version 2.3.1" ∧
    extractUpgradeSuggestion "please upgrade to 2.0 now" = "" := by
  refine ⟨by decide, by decide, by decide⟩

/-- Helper: joining after appending one more word. -/
theorem joinWords_snoc (run : List String) (w : String) (h : run ≠ []) :
    joinWords (run ++ [w]) = joinWords run ++ " " ++ w := by
  induction run with
  | nil => exact absurd rfl h
  | cons a run ih =>
    cases run with
    | nil => rfl
    | cons b run2 =>
      have ih2 := ih (by simp)
      simp only [List.cons_append] at *
      rw [joinWords, joinWords, ih2]
      simp only [String.append_assoc]

/-- Helper: joining a line already glued from a word. -/
theorem joinWords_glue (a b : String) (ws : List String) :
    joinWords ((a ++ " " ++ b) :: ws) = a ++ " " ++ joinWords (b :: ws) := by
  cases ws with
  | nil => rfl
  | cons x xs =>
    rw [joinWords, joinWords]
    simp only [String.append_assoc]

/-- Helper: a line is at least as long as its first word. -/
theorem le_length_joinWords (w : String) (ws : List String) :
    w.length ≤ (joinWords (w :: ws)).length := by
  cases ws with
  | nil => exact Nat.le_refl _
  | cons x xs =>
    rw [joinWords, String.length_append, String.length_append]
    omega

/-- Helper: the length of a glued line. -/
theorem length_glue (a b : String) :
    (a ++ " " ++ b).length = a.length + 1 + b.length := by
  rw [String.length_append, String.length_append]
  rfl

/-- Helper: every line the accumulation loop emits is the join of a
consecutive run of the word list, and is a single word unless it fits
the width. -/
theorem wrapLoop_shape (width : Nat) (all : List String) :
    ∀ (ws : List String) (line : String) (pre run : List String),
      all = pre ++ run ++ ws → run ≠ [] → line = joinWords run →
      (run.length = 1 ∨ line.length ≤ width) →
      ∀ l ∈ wrapLoop width line ws,
        ∃ pre2 run2 suf2, all = pre2 ++ run2 ++ suf2 ∧ l = joinWords run2 ∧
          ((∃ w, run2 = [w]) ∨ l.length ≤ width) := by
  intro ws
  induction ws with
  | nil =>
    intro line pre run hall hne hline hok l hl
    rw [wrapLoop] at hl
    simp only [List.mem_singleton] at hl
    subst hl
    refine ⟨pre, run, [], by simpa using hall, hline, ?_⟩
    rcases hok with h1 | h2
    · exact Or.inl (List.length_eq_one.mp h1)
    · exact Or.inr h2
  | cons w ws ih =>
    intro line pre run hall hne hline hok l hl
    rw [wrapLoop] at hl
    split_ifs at hl with hgt
    · rcases List.mem_cons.mp hl with rfl | hl2
      · refine ⟨pre, run, w :: ws, hall, hline, ?_⟩
        rcases hok with h1 | h2
        · exact Or.inl (List.length_eq_one.mp h1)
        · exact Or.inr h2
      · refine ih w (pre ++ run) [w] ?_ (by simp) rfl (Or.inl rfl) l hl2
        rw [hall]
        simp
    · refine ih (line ++ " " ++ w) pre (run ++ [w]) ?_ (by simp)
        ?_ (Or.inr ?_) l hl
      · rw [hall]
        simp
      · rw [joinWords_snoc run w hne, hline]
      · rw [length_glue]
        omega

/-- C4: every line `wrapText` produces is the single-space join of a
consecutive run of the input's words, and is a single input word
(possibly wider than the width) unless its character count is within
the width. -/
theorem wrapText_line_shape (s : String) (width : Nat) :
    ∀ l ∈ wrapText s width,
      ∃ pre run suf, fields s = pre ++ run ++ suf ∧ l = joinWords run ∧
        ((∃ w, run = [w]) ∨ l.length ≤ width) := by
  intro l hl
  unfold wrapText at hl
  cases hf : fields s with
  | nil =>
    rw [hf] at hl
    have hl0 : l = "" := by simpa using hl
    subst hl0
    exact ⟨[], [], [], by simp, rfl, Or.inr (by simp)⟩
  | cons w ws =>
    rw [hf] at hl
    have hl2 : l ∈ wrapLoop width w ws := hl
    exact wrapLoop_shape width (w :: ws) ws w [] [w] (by simp)
      (by simp) rfl (Or.inl rfl) l hl2

/-- Witness for `wrapText_line_shape` on a two-word input that fits. -/
theorem wrapText_line_shape_witness :
    ∃ pre run suf, fields "hello world" = pre ++ run ++ suf ∧
      "hello world" = joinWords run ∧
      ((∃ w, run = [w]) ∨ ("hello world" : String).length ≤ 11) :=
  wrapText_line_shape "hello world" 11 "hello world" (by decide)

/-- Helper: when the whole join fits the width, the loop emits it as
one line. -/
theorem wrapLoop_short (width : Nat) :
    ∀ (ws : List String) (line : String),
      (joinWords (line :: ws)).length ≤ width →
      wrapLoop width line ws = [joinWords (line :: ws)] := by
  intro ws
  induction ws with
  | nil => intro line _; rfl
  | cons w ws ih =>
    intro line h
    have hj : joinWords (line :: w :: ws) = line ++ " " ++ joinWords (w :: ws) :=
      rfl
    have hle : w.length ≤ (joinWords (w :: ws)).length := le_length_joinWords w ws
    have hlen : (joinWords (line :: w :: ws)).length
        = line.length + 1 + (joinWords (w :: ws)).length := by
      rw [hj, length_glue]
    rw [wrapLoop, if_neg (by omega), ih (line ++ " " ++ w) (by
      rw [joinWords_glue, ← hj]
      exact h)]
    rw [joinWords_glue, ← hj]

/-- C5 (amended): on whitespace-normalized input (the input equals the
single-space join of its own words) whose character count is shorter
than the width, `wrapText` returns exactly the input as its only line;
as a pure function of its arguments it does so on every call. -/
theorem wrapText_short_normalized (s : String) (width : Nat)
    (hnorm : s = joinWords (fields s)) (hshort : s.length < width) :
    wrapText s width = [s] := by
  unfold wrapText
  cases hf : fields s with
  | nil =>
    rw [hf] at hnorm
    rw [hnorm]
    rfl
  | cons w ws =>
    rw [hf] at hnorm
    show wrapLoop width w ws = [s]
    rw [wrapLoop_short width ws w (by rw [← hnorm]; omega), ← hnorm]

/-- Witness for `wrapText_short_normalized` on a normalized two-word
string. -/
theorem wrapText_short_normalized_witness :
    wrapText "hi there" 9 = ["hi there"] :=
  wrapText_short_normalized "hi there" 9 (by decide) (by decide)

/-- C5 counterexample: "a  b" is shorter than the width 10, yet
`wrapText` collapses its double space, returning ["a b"] instead of
["a  b"]. -/
theorem wrapText_short_counterexample :
    ("a  b" : String).length < 10 ∧ wrapText "a  b" 10 = ["a b"] ∧
    ("a b" : String) ≠ "a  b" := by
  refine ⟨by decide, by decide, by decide⟩
